import Mathlib

/-!
Shallow embedding of the golf_messenger TTR / Invitation business logic.

The Go sources embedded here:
- `internal/service` TTRService (CreateTTR, UpdateTTR, DeleteTTR, AddCoCaptain,
  RemoveCoCaptain, JoinTTR, LeaveTTR, canManageTTR, isCaptain, getPlayerCount).
- `internal/service/invitation_service.go` InvitationService (CreateInvitation,
  RespondToInvitation, CancelInvitation).
- `internal/repository/ttr_repository.go` and `invitation_repository.go`,
  as pure operations over an explicit database state `DB`.
- `migrations/000002_ttr_tables.up.sql` supplies the integrity constraints the
  relational store enforces: PRIMARY KEY (ttr_id, user_id) on ttr_players and
  ttr_co_captains, PRIMARY KEY id and UNIQUE(ttr_id, invitee_user_id) on
  invitations, PRIMARY KEY id on ttrs.

Identifiers (UUIDs in Go) are modelled as natural numbers; the database rows
that a repository query would generate an id for receive the fresh id as an
explicit argument of the service operation. Times are inert and modelled as
naturals. Errors are the exact `errors.New` strings of the source, carried in
`Except String`.
-/

namespace GolfMessenger

abbrev UserId := Nat
abbrev TTRId := Nat
abbrev InvId := Nat

/-- internal/models TTR status constants. -/
def TTRStatusOpen : String := "OPEN"

def TTRStatusConfirmed : String := "CONFIRMED"

def TTRStatusCancelled : String := "CANCELLED"

def TTRStatusCompleted : String := "COMPLETED"

/-- internal/models TTR player status constants. -/
def TTRPlayerStatusConfirmed : String := "CONFIRMED"

def TTRPlayerStatusMaybe : String := "MAYBE"

def TTRPlayerStatusDeclined : String := "DECLINED"

/-- internal/models/invitation.go status constants. -/
def InvitationStatusPending : String := "PENDING"

def InvitationStatusYes : String := "YES"

def InvitationStatusNo : String := "NO"

def InvitationStatusMaybe : String := "MAYBE"

def InvitationStatusCanceled : String := "CANCELED"

/-- models.TTR (internal/models): the fields the business logic reads or
writes. `maxPlayers` is a Go `int`, hence `Int`. -/
structure TTR where
  id : TTRId
  courseName : String
  courseLocation : Option String
  teeDate : Nat
  teeTime : Nat
  maxPlayers : Int
  createdByUserID : UserId
  captainUserID : UserId
  status : String
  notes : Option String
  deriving Repr, DecidableEq

/-- models.TTRPlayer: a roster row of table ttr_players. -/
structure TTRPlayer where
  ttrID : TTRId
  userID : UserId
  status : String
  deriving Repr, DecidableEq

/-- models.TTRCoCaptain: a row of table ttr_co_captains. -/
structure TTRCoCaptain where
  ttrID : TTRId
  userID : UserId
  deriving Repr, DecidableEq

/-- models.Invitation (internal/models/invitation.go). -/
structure Invitation where
  id : InvId
  ttrID : TTRId
  inviterUserID : UserId
  inviteeUserID : UserId
  status : String
  message : Option String
  respondedAt : Option Nat
  deriving Repr, DecidableEq

/-- The relational store: the tables the TTR/invitation logic touches.
Users are reduced to their ids, since the services only test existence. -/
structure DB where
  users : List UserId
  ttrs : List TTR
  coCaptains : List TTRCoCaptain
  players : List TTRPlayer
  invitations : List Invitation
  deriving Repr, DecidableEq

namespace Repo

/-- userRepository.FindByID: `some` when the user row exists, `none`
otherwise (gorm ErrRecordNotFound is mapped to a nil record). -/
def userFindByID (db : DB) (uid : UserId) : Option UserId :=
  db.users.find? (fun u => u == uid)

/-- ttrRepository.FindByID. -/
def ttrFindByID (db : DB) (tid : TTRId) : Option TTR :=
  db.ttrs.find? (fun t => t.id == tid)

/-- ttrRepository.Create: INSERT INTO ttrs; fails on a primary-key
collision (uuid primary key, migrations/000002). -/
def ttrCreate (db : DB) (ttr : TTR) : Except String DB :=
  if db.ttrs.any (fun t => t.id == ttr.id) then
    .error "failed to create ttr: duplicate key ttrs_pkey"
  else
    .ok { db with ttrs := db.ttrs ++ [ttr] }

/-- ttrRepository.Update: gorm Save, an UPDATE keyed on the primary key. -/
def ttrUpdate (db : DB) (ttr : TTR) : DB :=
  { db with ttrs := db.ttrs.map (fun t => if t.id == ttr.id then ttr else t) }

/-- ttrRepository.Delete: the row stops being visible to every query
(gorm soft delete via DeletedAt; FindByID filters deleted rows out). -/
def ttrDelete (db : DB) (tid : TTRId) : DB :=
  { db with ttrs := db.ttrs.filter (fun t => !(t.id == tid)) }

/-- ttrRepository.AddCoCaptain: INSERT INTO ttr_co_captains; the table has
PRIMARY KEY (ttr_id, user_id) (migrations/000002). -/
def addCoCaptain (db : DB) (tid : TTRId) (uid : UserId) : Except String DB :=
  if db.coCaptains.any (fun c => c.ttrID == tid && c.userID == uid) then
    .error "failed to add co-captain: duplicate key ttr_co_captains_pkey"
  else
    .ok { db with coCaptains := db.coCaptains ++ [⟨tid, uid⟩] }

/-- ttrRepository.RemoveCoCaptain: DELETE matching rows (zero rows is not
an error). -/
def removeCoCaptain (db : DB) (tid : TTRId) (uid : UserId) : DB :=
  { db with coCaptains := db.coCaptains.filter (fun c => !(c.ttrID == tid && c.userID == uid)) }

/-- ttrRepository.IsCoCaptain: COUNT > 0. -/
def isCoCaptain (db : DB) (tid : TTRId) (uid : UserId) : Bool :=
  db.coCaptains.any (fun c => c.ttrID == tid && c.userID == uid)

/-- ttrRepository.AddPlayer: INSERT INTO ttr_players; the table has
PRIMARY KEY (ttr_id, user_id) (migrations/000002). -/
def addPlayer (db : DB) (tid : TTRId) (uid : UserId) (status : String) : Except String DB :=
  if db.players.any (fun p => p.ttrID == tid && p.userID == uid) then
    .error "failed to add player: duplicate key ttr_players_pkey"
  else
    .ok { db with players := db.players ++ [⟨tid, uid, status⟩] }

/-- ttrRepository.RemovePlayer: DELETE matching rows (zero rows is not an
error). -/
def removePlayer (db : DB) (tid : TTRId) (uid : UserId) : DB :=
  { db with players := db.players.filter (fun p => !(p.ttrID == tid && p.userID == uid)) }

/-- ttrRepository.GetPlayers: SELECT * FROM ttr_players WHERE ttr_id = ?. -/
def getPlayers (db : DB) (tid : TTRId) : List TTRPlayer :=
  db.players.filter (fun p => p.ttrID == tid)

/-- ttrRepository.IsPlayer: COUNT > 0. -/
def isPlayer (db : DB) (tid : TTRId) (uid : UserId) : Bool :=
  db.players.any (fun p => p.ttrID == tid && p.userID == uid)

/-- invitationRepository.FindByID. -/
def invFindByID (db : DB) (iid : InvId) : Option Invitation :=
  db.invitations.find? (fun i => i.id == iid)

/-- invitationRepository.FindByTTRAndInvitee: First row matching
(ttr_id, invitee_user_id); the UNIQUE(ttr_id, invitee_user_id) constraint
of migrations/000002 makes at most one row match. -/
def invFindByTTRAndInvitee (db : DB) (tid : TTRId) (uid : UserId) : Option Invitation :=
  db.invitations.find? (fun i => i.ttrID == tid && i.inviteeUserID == uid)

/-- invitationRepository.Create: INSERT INTO invitations; fails on the id
primary key or on UNIQUE(ttr_id, invitee_user_id) (migrations/000002). -/
def invCreate (db : DB) (inv : Invitation) : Except String DB :=
  if db.invitations.any (fun i => i.id == inv.id) then
    .error "failed to create invitation: duplicate key invitations_pkey"
  else if db.invitations.any (fun i => i.ttrID == inv.ttrID && i.inviteeUserID == inv.inviteeUserID) then
    .error "failed to create invitation: duplicate key invitations_ttr_id_invitee_user_id_key"
  else
    .ok { db with invitations := db.invitations ++ [inv] }

/-- invitationRepository.Update: gorm Save, an UPDATE keyed on the primary
key. -/
def invUpdate (db : DB) (inv : Invitation) : DB :=
  { db with invitations := db.invitations.map (fun i => if i.id == inv.id then inv else i) }

end Repo

open Repo

namespace TTRService

/-- TTRService.isCaptain: the TTR must exist; compares the captain id. -/
def isCaptain (db : DB) (tid : TTRId) (uid : UserId) : Except String Bool :=
  match ttrFindByID db tid with
  | none => .error "TTR not found"
  | some ttr => .ok (ttr.captainUserID == uid)

/-- TTRService.canManageTTR: captain, or else co-captain. -/
def canManageTTR (db : DB) (tid : TTRId) (uid : UserId) : Except String Bool :=
  match isCaptain db tid uid with
  | .error e => .error e
  | .ok true => .ok true
  | .ok false => .ok (Repo.isCoCaptain db tid uid)

/-- TTRService.getPlayerCount: len(GetPlayers). -/
def getPlayerCount (db : DB) (tid : TTRId) : Nat :=
  (getPlayers db tid).length

/-- TTRService.CreateTTR. The fresh uuid the store would generate for the
new row is the explicit argument `newId`. Returns the result alongside the
updated store; on error the store reached so far is returned unchanged
beyond the writes already performed (there is no transaction in the Go
code). -/
def CreateTTR (db : DB) (newId : TTRId) (userID : UserId) (courseName : String)
    (courseLocation : Option String) (teeDate teeTime : Nat) (maxPlayers : Int)
    (notes : Option String) : Except String TTR × DB :=
  if maxPlayers ≤ 0 then
    (.error "max_players must be greater than 0", db)
  else
    match userFindByID db userID with
    | none => (.error "user not found", db)
    | some _ =>
      let ttr : TTR :=
        { id := newId, courseName := courseName, courseLocation := courseLocation
          teeDate := teeDate, teeTime := teeTime, maxPlayers := maxPlayers
          createdByUserID := userID, captainUserID := userID
          status := TTRStatusOpen, notes := notes }
      match ttrCreate db ttr with
      | .error e => (.error ("failed to create TTR: " ++ e), db)
      | .ok db1 =>
        match addPlayer db1 newId userID TTRPlayerStatusConfirmed with
        | .error e => (.error ("failed to add captain as player: " ++ e), db1)
        | .ok db2 =>
          match ttrFindByID db2 newId with
          | none => (.error "failed to retrieve created TTR", db2)
          | some createdTTR => (.ok createdTTR, db2)

/-- TTRService.UpdateTTR: partial update; each supplied field overwrites.
The status field is stored without any validation. -/
def UpdateTTR (db : DB) (ttrID : TTRId) (userID : UserId) (courseName : Option String)
    (courseLocation : Option String) (teeDate teeTime : Option Nat)
    (maxPlayers : Option Int) (status : Option String) (notes : Option String) :
    Except String TTR × DB :=
  match canManageTTR db ttrID userID with
  | .error e => (.error ("failed to check permissions: " ++ e), db)
  | .ok false => (.error "unauthorized: only captain or co-captain can update TTR", db)
  | .ok true =>
    match ttrFindByID db ttrID with
    | none => (.error "TTR not found", db)
    | some ttr0 =>
      let ttr1 := match courseName with | none => ttr0 | some v => { ttr0 with courseName := v }
      let ttr2 := match courseLocation with | none => ttr1 | some v => { ttr1 with courseLocation := some v }
      let ttr3 := match teeDate with | none => ttr2 | some v => { ttr2 with teeDate := v }
      let ttr4 := match teeTime with | none => ttr3 | some v => { ttr3 with teeTime := v }
      if maxPlayers.isSome && (maxPlayers.getD 0) ≤ 0 then
        (.error "max_players must be greater than 0", db)
      else
        let ttr5 := match maxPlayers with | none => ttr4 | some v => { ttr4 with maxPlayers := v }
        let ttr6 := match status with | none => ttr5 | some v => { ttr5 with status := v }
        let ttr7 := match notes with | none => ttr6 | some v => { ttr6 with notes := some v }
        let db1 := ttrUpdate db ttr7
        match ttrFindByID db1 ttrID with
        | none => (.error "failed to retrieve updated TTR", db1)
        | some updatedTTR => (.ok updatedTTR, db1)

/-- TTRService.DeleteTTR: captain only. -/
def DeleteTTR (db : DB) (ttrID : TTRId) (userID : UserId) : Except String Unit × DB :=
  match isCaptain db ttrID userID with
  | .error e => (.error ("failed to check captain status: " ++ e), db)
  | .ok false => (.error "unauthorized: only captain can delete TTR", db)
  | .ok true => (.ok (), ttrDelete db ttrID)

/-- TTRService.AddCoCaptain: captain only; target must exist and not be a
co-captain already. -/
def AddCoCaptain (db : DB) (ttrID : TTRId) (captainUserID coCaptainUserID : UserId) :
    Except String Unit × DB :=
  match isCaptain db ttrID captainUserID with
  | .error e => (.error ("failed to check captain status: " ++ e), db)
  | .ok false => (.error "unauthorized: only captain can add co-captains", db)
  | .ok true =>
    match userFindByID db coCaptainUserID with
    | none => (.error "co-captain user not found", db)
    | some _ =>
      if Repo.isCoCaptain db ttrID coCaptainUserID then
        (.error "user is already a co-captain", db)
      else
        match Repo.addCoCaptain db ttrID coCaptainUserID with
        | .error e => (.error ("failed to add co-captain: " ++ e), db)
        | .ok db1 => (.ok (), db1)

/-- TTRService.RemoveCoCaptain: captain only. -/
def RemoveCoCaptain (db : DB) (ttrID : TTRId) (captainUserID coCaptainUserID : UserId) :
    Except String Unit × DB :=
  match isCaptain db ttrID captainUserID with
  | .error e => (.error ("failed to check captain status: " ++ e), db)
  | .ok false => (.error "unauthorized: only captain can remove co-captains", db)
  | .ok true => (.ok (), Repo.removeCoCaptain db ttrID coCaptainUserID)

/-- TTRService.JoinTTR: capacity check, then duplicate-player check, then
insert with status CONFIRMED. -/
def JoinTTR (db : DB) (ttrID : TTRId) (userID : UserId) : Except String Unit × DB :=
  match ttrFindByID db ttrID with
  | none => (.error "TTR not found", db)
  | some ttr =>
    if ((getPlayerCount db ttrID : Int)) ≥ ttr.maxPlayers then
      (.error "TTR is full", db)
    else if isPlayer db ttrID userID then
      (.error "user is already a player", db)
    else
      match addPlayer db ttrID userID TTRPlayerStatusConfirmed with
      | .error e => (.error ("failed to join TTR: " ++ e), db)
      | .ok db1 => (.ok (), db1)

/-- TTRService.LeaveTTR: the captain may not leave; anyone else is removed
(removing zero rows is not an error). -/
def LeaveTTR (db : DB) (ttrID : TTRId) (userID : UserId) : Except String Unit × DB :=
  match ttrFindByID db ttrID with
  | none => (.error "TTR not found", db)
  | some ttr =>
    if ttr.captainUserID == userID then
      (.error "captain cannot leave TTR", db)
    else
      (.ok (), removePlayer db ttrID userID)

end TTRService

namespace InvitationService

/-- InvitationService.CreateInvitation (invitation_service.go lines 38 to
114). The fresh uuid for the row is the explicit argument `newId`. The
notification side effect is a logging stub (NotificationService always
returns nil) and touches no persisted state, so it is omitted. -/
def CreateInvitation (db : DB) (newId : InvId) (ttrID : TTRId)
    (inviterUserID inviteeUserID : UserId) (message : Option String) :
    Except String Invitation × DB :=
  match ttrFindByID db ttrID with
  | none => (.error "TTR not found", db)
  | some ttr =>
    let isCap := ttr.captainUserID == inviterUserID
    let isCoCap := Repo.isCoCaptain db ttrID inviterUserID
    if !isCap && !isCoCap then
      (.error "unauthorized: only captain or co-captain can send invitations", db)
    else
      match userFindByID db inviteeUserID with
      | none => (.error "invitee user not found", db)
      | some _ =>
        if ((getPlayers db ttrID).length : Int) ≥ ttr.maxPlayers then
          (.error "TTR is full", db)
        else if isPlayer db ttrID inviteeUserID then
          (.error "invitee is already a player in this TTR", db)
        else
          let existing := invFindByTTRAndInvitee db ttrID inviteeUserID
          if (match existing with
              | some ex => ex.status == InvitationStatusPending
              | none => false) then
            (.error "pending invitation already exists for this user", db)
          else
            let invitation : Invitation :=
              { id := newId, ttrID := ttrID, inviterUserID := inviterUserID
                inviteeUserID := inviteeUserID, status := InvitationStatusPending
                message := message, respondedAt := none }
            match invCreate db invitation with
            | .error e => (.error ("failed to create invitation: " ++ e), db)
            | .ok db1 =>
              match invFindByID db1 newId with
              | none => (.error "failed to retrieve created invitation", db1)
              | some createdInvitation => (.ok createdInvitation, db1)

/-- InvitationService.RespondToInvitation (invitation_service.go lines 116
to 178). `now` stands for time.Now(). On the YES path the roster write
precedes the invitation update, and every early error return leaves the
store untouched. -/
def RespondToInvitation (db : DB) (invitationID : InvId) (inviteeUserID : UserId)
    (status : String) (now : Nat) : Except String Invitation × DB :=
  if !(status == InvitationStatusYes || status == InvitationStatusNo
      || status == InvitationStatusMaybe) then
    (.error "invalid invitation status", db)
  else
    match invFindByID db invitationID with
    | none => (.error "invitation not found", db)
    | some invitation =>
      if !(invitation.inviteeUserID == inviteeUserID) then
        (.error "unauthorized: you can only respond to your own invitations", db)
      else if !(invitation.status == InvitationStatusPending) then
        (.error "invitation has already been responded to", db)
      else
        let updated := { invitation with status := status, respondedAt := some now }
        if status == InvitationStatusYes then
          match ttrFindByID db invitation.ttrID with
          | none => (.error "TTR not found", db)
          | some ttr =>
            if ((getPlayers db invitation.ttrID).length : Int) ≥ ttr.maxPlayers then
              (.error "TTR is full, cannot accept invitation", db)
            else
              match addPlayer db invitation.ttrID inviteeUserID TTRPlayerStatusConfirmed with
              | .error e => (.error ("failed to add player to TTR: " ++ e), db)
              | .ok db1 =>
                let db2 := invUpdate db1 updated
                match invFindByID db2 invitationID with
                | none => (.error "failed to retrieve updated invitation", db2)
                | some result => (.ok result, db2)
        else
          let db2 := invUpdate db updated
          match invFindByID db2 invitationID with
          | none => (.error "failed to retrieve updated invitation", db2)
          | some result => (.ok result, db2)

/-- InvitationService.CancelInvitation (invitation_service.go lines 208 to
232): inviter only, and only while PENDING. -/
def CancelInvitation (db : DB) (invitationID : InvId) (userID : UserId) :
    Except String Unit × DB :=
  match invFindByID db invitationID with
  | none => (.error "invitation not found", db)
  | some invitation =>
    if !(invitation.inviterUserID == userID) then
      (.error "unauthorized: only the inviter can cancel the invitation", db)
    else if !(invitation.status == InvitationStatusPending) then
      (.error "only pending invitations can be canceled", db)
    else
      (.ok (), invUpdate db { invitation with status := InvitationStatusCanceled })

end InvitationService

/-! Integrity predicates provided by the relational schema
(migrations/000002_ttr_tables.up.sql). -/

/-- The invitations table has UNIQUE(ttr_id, invitee_user_id). -/
def InvKeysUnique (db : DB) : Prop :=
  (db.invitations.map (fun i => (i.ttrID, i.inviteeUserID))).Nodup

instance (db : DB) : Decidable (InvKeysUnique db) := by
  unfold InvKeysUnique; infer_instance

/-- The invitations table has PRIMARY KEY id. -/
def InvIdsUnique (db : DB) : Prop :=
  (db.invitations.map Invitation.id).Nodup

instance (db : DB) : Decidable (InvIdsUnique db) := by
  unfold InvIdsUnique; infer_instance

/-! Helper lemmas on the repository operations. -/

theorem find?_append_of_none {α : Type} (l₁ l₂ : List α) (p : α → Bool)
    (h : l₁.find? p = none) : (l₁ ++ l₂).find? p = l₂.find? p := by
  rw [List.find?_append, h, Option.none_or]

theorem find?_beq_of_mem (l : List UserId) (uid : UserId) (h : uid ∈ l) :
    l.find? (fun u => u == uid) = some uid := by
  induction l with
  | nil => cases h
  | cons a t ih =>
    by_cases ha : a = uid
    · subst ha; rw [List.find?_cons_of_pos _ (by simp)]
    · rw [List.find?_cons_of_neg _ (by simp [ha])]
      exact ih (by rcases List.mem_cons.mp h with h' | h' <;> [exact absurd h'.symm ha; exact h'])

theorem userFindByID_of_mem (db : DB) (uid : UserId) (h : uid ∈ db.users) :
    Repo.userFindByID db uid = some uid :=
  find?_beq_of_mem db.users uid h

theorem mem_users_of_userFindByID (db : DB) (uid x : UserId)
    (h : Repo.userFindByID db uid = some x) : uid ∈ db.users := by
  unfold Repo.userFindByID at h
  have hx := List.find?_some h
  have hmem := List.mem_of_find?_eq_some h
  rw [beq_iff_eq] at hx
  exact hx ▸ hmem

/-- Appending one player row changes the roster of a TTR by exactly that
row when it belongs to the TTR, and not at all otherwise. -/
theorem getPlayers_append (db : DB) (p : TTRPlayer) (tid : TTRId) :
    Repo.getPlayers { db with players := db.players ++ [p] } tid =
      Repo.getPlayers db tid ++ (if p.ttrID = tid then [p] else []) := by
  unfold Repo.getPlayers
  rw [List.filter_append]
  by_cases h : p.ttrID = tid
  · simp [List.filter, h]
  · have hb : (p.ttrID == tid) = false := by simp [beq_iff_eq, h]
    simp [List.filter, hb, h]

theorem getPlayers_invUpdate (db : DB) (inv : Invitation) (tid : TTRId) :
    Repo.getPlayers (Repo.invUpdate db inv) tid = Repo.getPlayers db tid := rfl

/-- A first-match search keyed on the (ttr, invitee) pair finds any member
of the table once the pair column is duplicate-free. -/
theorem find?_pair_of_nodup (l : List Invitation) (inv : Invitation)
    (hnd : (l.map (fun i => (i.ttrID, i.inviteeUserID))).Nodup) (hmem : inv ∈ l) :
    l.find? (fun i => i.ttrID == inv.ttrID && i.inviteeUserID == inv.inviteeUserID) =
      some inv := by
  induction l with
  | nil => cases hmem
  | cons a t ih =>
    rw [List.map_cons] at hnd
    have hnd' := List.nodup_cons.mp hnd
    rcases List.mem_cons.mp hmem with h' | h'
    · subst h'; rw [List.find?_cons_of_pos _ (by simp)]
    · have hkey : (a.ttrID, a.inviteeUserID) ≠ (inv.ttrID, inv.inviteeUserID) := by
        intro hc
        exact hnd'.1 (hc ▸ List.mem_map_of_mem (fun i => (i.ttrID, i.inviteeUserID)) h')
      have hpred : ¬ (fun i => i.ttrID == inv.ttrID && i.inviteeUserID == inv.inviteeUserID) a = true := by
        intro hc
        rw [Bool.and_eq_true, beq_iff_eq, beq_iff_eq] at hc
        exact hkey (by rw [hc.1, hc.2])
      rw [@List.find?_cons_of_neg _ _ a t hpred]
      exact ih hnd'.2 h'

/-- Replacing the row whose primary key matches keeps a first-match search
on that key pointed at the replacement. -/
theorem find?_map_update_key {α : Type} (key : α → Nat) (l : List α) (k : Nat) (x y : α)
    (hfind : l.find? (fun i => key i == k) = some x) (hy : key y = key x) :
    (l.map (fun i => if key i == key y then y else i)).find? (fun i => key i == k) = some y := by
  have hxk : key x = k := by
    have := List.find?_some hfind
    rwa [beq_iff_eq] at this
  induction l with
  | nil => simp [List.find?] at hfind
  | cons a t ih =>
    by_cases ha : key a = k
    · have hax : a = x := by
        rw [List.find?_cons_of_pos _ (by simp [ha])] at hfind
        exact Option.some.inj hfind
      rw [List.map_cons]
      have hcond : (key a == key y) = true := by rw [beq_iff_eq, hy, hax]
      simp only [hcond, if_true]
      rw [List.find?_cons_of_pos _ (by rw [beq_iff_eq, hy, hxk])]
    · have hfind' : t.find? (fun i => key i == k) = some x := by
        rw [List.find?_cons_of_neg _ (by simp [ha])] at hfind
        exact hfind
      rw [List.map_cons]
      have hay : ¬ (key a == key y) = true := by
        rw [beq_iff_eq, hy, hxk]
        exact ha
      simp only [Bool.not_eq_true] at hay
      simp only [hay, Bool.false_eq_true, if_false]
      rw [List.find?_cons_of_neg _ (by simp [ha])]
      exact ih hfind'

/-- Members whose primary key differs from the updated one survive a
keyed replacement untouched. -/
theorem mem_map_update_of_ne (l : List Invitation) (y inv : Invitation)
    (hmem : inv ∈ l) (hne : inv.id ≠ y.id) :
    inv ∈ l.map (fun i => if i.id == y.id then y else i) := by
  have : (fun i => if i.id == y.id then y else i) inv = inv := by
    simp [beq_iff_eq, hne]
  exact this ▸ List.mem_map_of_mem _ hmem

/-! Concrete stores used by the witnesses. -/

/-- A TTR with capacity 4 whose captain is user 1. -/
def ttrA : TTR :=
  { id := 10, courseName := "Pebble Beach", courseLocation := none
    teeDate := 20260101, teeTime := 930, maxPlayers := 4
    createdByUserID := 1, captainUserID := 1, status := TTRStatusOpen, notes := none }

/-- Store: users 1..4, one TTR (capacity 4, captain 1, co-captain 2,
roster = captain only), one pending invitation 100 from 1 to 3. -/
def dbA : DB :=
  { users := [1, 2, 3, 4], ttrs := [ttrA]
    coCaptains := [⟨10, 2⟩]
    players := [⟨10, 1, TTRPlayerStatusConfirmed⟩]
    invitations := [⟨100, 10, 1, 3, InvitationStatusPending, none, none⟩] }

/-- A TTR with capacity 1 whose captain is user 1 and whose roster is
already at capacity. -/
def ttrB : TTR :=
  { id := 20, courseName := "St Andrews", courseLocation := none
    teeDate := 20260102, teeTime := 1000, maxPlayers := 1
    createdByUserID := 1, captainUserID := 1, status := TTRStatusOpen, notes := none }

/-- Store: full TTR (capacity 1, roster = captain) and a pending
invitation 200 from 1 to 2. -/
def dbB : DB :=
  { users := [1, 2, 3], ttrs := [ttrB]
    coCaptains := []
    players := [⟨20, 1, TTRPlayerStatusConfirmed⟩]
    invitations := [⟨200, 20, 1, 2, InvitationStatusPending, none, none⟩] }

/-- Store: one TTR and one already-answered (YES) invitation 300 from
user 1 to user 2. -/
def dbC : DB :=
  { users := [1, 2], ttrs := [ttrA]
    coCaptains := []
    players := [⟨10, 1, TTRPlayerStatusConfirmed⟩, ⟨10, 2, TTRPlayerStatusConfirmed⟩]
    invitations := [⟨300, 10, 1, 2, InvitationStatusYes, none, some 5⟩] }

/-! ### Claim theorems -/

/-- C8: for every existing TTR, LeaveTTR called by the captain fails with
the InvalidOperation error "captain cannot leave TTR" and leaves the
store unchanged, even when the captain is the sole player; LeaveTTR
called by any non-captain actor does not produce that error: it succeeds,
removing exactly the matching roster rows. -/
theorem C8_leaveTTR_captain_blocked (db : DB) (tid : TTRId) (uid : UserId) (ttr : TTR)
    (hfind : Repo.ttrFindByID db tid = some ttr) :
    (ttr.captainUserID = uid →
      TTRService.LeaveTTR db tid uid = (.error "captain cannot leave TTR", db))
    ∧ (ttr.captainUserID ≠ uid →
      TTRService.LeaveTTR db tid uid = (.ok (), Repo.removePlayer db tid uid)) := by
  unfold TTRService.LeaveTTR
  rw [hfind]
  constructor
  · intro h
    have hb : (ttr.captainUserID == uid) = true := by rw [beq_iff_eq]; exact h
    simp [hb]
  · intro h
    have hb : (ttr.captainUserID == uid) = false := by simp [beq_iff_eq, h]
    simp [hb]

theorem C8_leaveTTR_captain_blocked_witness :
    TTRService.LeaveTTR dbA 10 1 = (.error "captain cannot leave TTR", dbA)
    ∧ TTRService.LeaveTTR dbA 10 2 = (.ok (), Repo.removePlayer dbA 10 2) :=
  ⟨(C8_leaveTTR_captain_blocked dbA 10 1 ttrA (by rfl)).1 (by decide),
   (C8_leaveTTR_captain_blocked dbA 10 2 ttrA (by rfl)).2 (by decide)⟩

/-- C10: for every existing TTR and non-captain actor who is not a player
of that TTR, LeaveTTR succeeds and the store — the roster in particular —
is completely unchanged: no membership check precedes the removal. -/
theorem C10_leaveTTR_nonplayer_noop (db : DB) (tid : TTRId) (uid : UserId) (ttr : TTR)
    (hfind : Repo.ttrFindByID db tid = some ttr)
    (hcap : ttr.captainUserID ≠ uid)
    (hnp : Repo.isPlayer db tid uid = false) :
    TTRService.LeaveTTR db tid uid = (.ok (), db) := by
  unfold TTRService.LeaveTTR
  rw [hfind]
  have hb : (ttr.captainUserID == uid) = false := by simp [beq_iff_eq, hcap]
  simp only [hb, Bool.false_eq_true, if_false]
  have hfilter : db.players.filter (fun p => !(p.ttrID == tid && p.userID == uid)) = db.players := by
    apply List.filter_eq_self.mpr
    intro p hp
    unfold Repo.isPlayer at hnp
    rw [List.any_eq_false] at hnp
    simp [hnp p hp]
  unfold Repo.removePlayer
  rw [hfilter]

theorem C10_leaveTTR_nonplayer_noop_witness :
    TTRService.LeaveTTR dbA 10 4 = (.ok (), dbA) :=
  C10_leaveTTR_nonplayer_noop dbA 10 4 ttrA (by rfl) (by decide) (by decide)

/-- C6: for every existing TTR, AddCoCaptain, RemoveCoCaptain and
DeleteTTR reject every actor other than the captain (co-captains
included) with the corresponding Unauthorized error and leave the store
unchanged, and each of the three succeeds only when the actor is the
captain. -/
theorem C6_captain_only_operations (db : DB) (tid : TTRId) (actor target : UserId) (ttr : TTR)
    (hfind : Repo.ttrFindByID db tid = some ttr) :
    (ttr.captainUserID ≠ actor →
      TTRService.AddCoCaptain db tid actor target =
        (.error "unauthorized: only captain can add co-captains", db)
      ∧ TTRService.RemoveCoCaptain db tid actor target =
        (.error "unauthorized: only captain can remove co-captains", db)
      ∧ TTRService.DeleteTTR db tid actor =
        (.error "unauthorized: only captain can delete TTR", db))
    ∧ (∀ r db', TTRService.AddCoCaptain db tid actor target = (.ok r, db') →
        ttr.captainUserID = actor)
    ∧ (∀ r db', TTRService.RemoveCoCaptain db tid actor target = (.ok r, db') →
        ttr.captainUserID = actor)
    ∧ (∀ r db', TTRService.DeleteTTR db tid actor = (.ok r, db') →
        ttr.captainUserID = actor) := by
  have hic : TTRService.isCaptain db tid actor = .ok (ttr.captainUserID == actor) := by
    unfold TTRService.isCaptain
    rw [hfind]
  refine ⟨fun hne => ?_, fun r db' h => ?_, fun r db' h => ?_, fun r db' h => ?_⟩
  · have hb : (ttr.captainUserID == actor) = false := by simp [beq_iff_eq, hne]
    rw [hb] at hic
    unfold TTRService.AddCoCaptain TTRService.RemoveCoCaptain TTRService.DeleteTTR
    rw [hic]
    exact ⟨rfl, rfl, rfl⟩
  · by_cases hcap : ttr.captainUserID = actor
    · exact hcap
    · exfalso
      have hb : (ttr.captainUserID == actor) = false := by simp [beq_iff_eq, hcap]
      rw [hb] at hic
      unfold TTRService.AddCoCaptain at h
      rw [hic] at h
      exact absurd h (by simp)
  · by_cases hcap : ttr.captainUserID = actor
    · exact hcap
    · exfalso
      have hb : (ttr.captainUserID == actor) = false := by simp [beq_iff_eq, hcap]
      rw [hb] at hic
      unfold TTRService.RemoveCoCaptain at h
      rw [hic] at h
      exact absurd h (by simp)
  · by_cases hcap : ttr.captainUserID = actor
    · exact hcap
    · exfalso
      have hb : (ttr.captainUserID == actor) = false := by simp [beq_iff_eq, hcap]
      rw [hb] at hic
      unfold TTRService.DeleteTTR at h
      rw [hic] at h
      exact absurd h (by simp)

/-- C5: CreateTTR rejects a non-positive capacity with InvalidArgument and
a missing actor with NotFound; on success the returned TTR has the actor
as creator and captain, status OPEN, and the roster of the new TTR holds
exactly the actor as a CONFIRMED player. -/
theorem C5_createTTR_spec (db : DB) (newId : TTRId) (uid : UserId) (cn : String)
    (loc : Option String) (d t : Nat) (maxP : Int) (notes : Option String) :
    (maxP ≤ 0 → TTRService.CreateTTR db newId uid cn loc d t maxP notes =
      (.error "max_players must be greater than 0", db))
    ∧ (0 < maxP → Repo.userFindByID db uid = none →
      TTRService.CreateTTR db newId uid cn loc d t maxP notes = (.error "user not found", db))
    ∧ (0 < maxP → uid ∈ db.users →
      Repo.ttrFindByID db newId = none → Repo.getPlayers db newId = [] →
      TTRService.CreateTTR db newId uid cn loc d t maxP notes =
        (.ok { id := newId, courseName := cn, courseLocation := loc, teeDate := d, teeTime := t
               maxPlayers := maxP, createdByUserID := uid, captainUserID := uid
               status := TTRStatusOpen, notes := notes },
         { db with
             ttrs := db.ttrs ++
               [{ id := newId, courseName := cn, courseLocation := loc, teeDate := d, teeTime := t
                  maxPlayers := maxP, createdByUserID := uid, captainUserID := uid
                  status := TTRStatusOpen, notes := notes }]
             players := db.players ++ [⟨newId, uid, TTRPlayerStatusConfirmed⟩] })
      ∧ Repo.getPlayers
          { db with
              ttrs := db.ttrs ++
                [{ id := newId, courseName := cn, courseLocation := loc, teeDate := d, teeTime := t
                   maxPlayers := maxP, createdByUserID := uid, captainUserID := uid
                   status := TTRStatusOpen, notes := notes }]
              players := db.players ++ [⟨newId, uid, TTRPlayerStatusConfirmed⟩] } newId =
        [⟨newId, uid, TTRPlayerStatusConfirmed⟩]) := by
  refine ⟨fun hle => ?_, fun hpos hnone => ?_, fun hpos hmem htid hpl => ?_⟩
  · unfold TTRService.CreateTTR
    rw [if_pos hle]
  · unfold TTRService.CreateTTR
    rw [if_neg (by omega), hnone]
  · have hanyt : db.ttrs.any (fun x => x.id == newId) = false := by
      rw [List.any_eq_false]
      intro x hx
      unfold Repo.ttrFindByID at htid
      rw [List.find?_eq_none] at htid
      exact htid x hx
    have hanyp : db.players.any (fun p => p.ttrID == newId && p.userID == uid) = false := by
      rw [List.any_eq_false]
      intro p hp
      unfold Repo.getPlayers at hpl
      rw [List.filter_eq_nil_iff] at hpl
      simp [hpl p hp]
    have hroster : ∀ dbx : DB, dbx.players = db.players ++ [⟨newId, uid, TTRPlayerStatusConfirmed⟩] →
        Repo.getPlayers dbx newId = [⟨newId, uid, TTRPlayerStatusConfirmed⟩] := by
      intro dbx hx
      unfold Repo.getPlayers
      rw [hx, List.filter_append]
      unfold Repo.getPlayers at hpl
      rw [hpl]
      simp [List.filter]
    constructor
    · unfold TTRService.CreateTTR
      rw [if_neg (by omega), userFindByID_of_mem db uid hmem]
      dsimp only
      unfold Repo.ttrCreate
      simp only [hanyt, Bool.false_eq_true, if_false]
      unfold Repo.addPlayer
      dsimp only
      simp only [hanyp, Bool.false_eq_true, if_false]
      unfold Repo.ttrFindByID
      dsimp only
      rw [find?_append_of_none _ _ _ (by unfold Repo.ttrFindByID at htid; exact htid)]
      rw [List.find?_cons_of_pos _ (by simp)]
    · exact hroster _ rfl

theorem C5_createTTR_spec_witness :
    TTRService.CreateTTR dbA 30 2 "Augusta" none 20260105 800 4 none =
      (.ok { id := 30, courseName := "Augusta", courseLocation := none, teeDate := 20260105
             teeTime := 800, maxPlayers := 4, createdByUserID := 2, captainUserID := 2
             status := TTRStatusOpen, notes := none },
       { dbA with
           ttrs := dbA.ttrs ++
             [{ id := 30, courseName := "Augusta", courseLocation := none, teeDate := 20260105
                teeTime := 800, maxPlayers := 4, createdByUserID := 2, captainUserID := 2
                status := TTRStatusOpen, notes := none }]
           players := dbA.players ++ [⟨30, 2, TTRPlayerStatusConfirmed⟩] }) :=
  ((C5_createTTR_spec dbA 30 2 "Augusta" none 20260105 800 4 none).2.2
    (by decide) (by decide) (by rfl) (by rfl)).1

theorem C6_captain_only_operations_witness :
    TTRService.AddCoCaptain dbA 10 2 3 =
      (.error "unauthorized: only captain can add co-captains", dbA)
    ∧ TTRService.RemoveCoCaptain dbA 10 2 3 =
      (.error "unauthorized: only captain can remove co-captains", dbA)
    ∧ TTRService.DeleteTTR dbA 10 2 =
      (.error "unauthorized: only captain can delete TTR", dbA) :=
  (C6_captain_only_operations dbA 10 2 3 ttrA (by rfl)).1 (by decide)

/-- An authorized inviter (captain or co-captain) falsifies the
unauthorized-check condition of CreateInvitation. -/
theorem auth_cond_false (db : DB) (tid : TTRId) (inviter : UserId) (ttr : TTR)
    (hauth : ttr.captainUserID = inviter ∨ Repo.isCoCaptain db tid inviter = true) :
    ¬ ((!(ttr.captainUserID == inviter) && !Repo.isCoCaptain db tid inviter) = true) := by
  intro hc
  rw [Bool.and_eq_true, Bool.not_eq_true', Bool.not_eq_true'] at hc
  rcases hauth with h | h
  · have hb := beq_iff_eq.mpr h
    rw [hc.1] at hb
    cases hb
  · rw [h] at hc
    cases hc.2

/-- Rewriting the unique row with a given primary key, by a row carrying
the same (ttr, invitee) pair, leaves the pair column of the table
unchanged. -/
theorem keys_map_update_preserved (l : List Invitation) (found upd : Invitation)
    (hids : (l.map Invitation.id).Nodup) (hmemf : found ∈ l)
    (ht : upd.ttrID = found.ttrID) (hu : upd.inviteeUserID = found.inviteeUserID) :
    (l.map (fun i => if i.id == found.id then upd else i)).map
        (fun i => (i.ttrID, i.inviteeUserID)) =
      l.map (fun i => (i.ttrID, i.inviteeUserID)) := by
  rw [List.map_map]
  refine List.map_congr_left ?_
  intro i hi
  by_cases hb : i.id = found.id
  · have hif : i = found := List.inj_on_of_nodup_map hids hi hmemf hb
    simp only [Function.comp_apply, beq_iff_eq.mpr hb, if_true]
    rw [ht, hu, hif]
  · have hbf : (i.id == found.id) = false := by simp [beq_iff_eq, hb]
    simp only [Function.comp_apply, hbf, Bool.false_eq_true, if_false]

/-- A successful insert into the invitations table also certifies that
neither the id column nor the (ttr, invitee) pair collided. -/
theorem invCreate_ok_fresh (db : DB) (i : Invitation) (db1 : DB)
    (h : Repo.invCreate db i = .ok db1) :
    (db.invitations.any fun j => j.id == i.id) = false
    ∧ (db.invitations.any fun j => j.ttrID == i.ttrID && j.inviteeUserID == i.inviteeUserID) = false
    ∧ db1 = { db with invitations := db.invitations ++ [i] } := by
  unfold Repo.invCreate at h
  split at h
  · cases h
  · rename_i h1
    split at h
    · cases h
    · rename_i h2
      rw [Bool.not_eq_true] at h1 h2
      exact ⟨h1, h2, (Except.ok.inj h).symm⟩

/-- A successful insert into the roster table does not touch the
invitations table. -/
theorem addPlayer_ok_invitations (db : DB) (tid : TTRId) (uid : UserId) (st : String)
    (db1 : DB) (h : Repo.addPlayer db tid uid st = .ok db1) :
    db1.invitations = db.invitations := by
  unfold Repo.addPlayer at h
  split at h
  · cases h
  · rw [← Except.ok.inj h]

/-- The store CreateInvitation returns is either untouched or extended by
exactly the new pending invitation row. -/
theorem createInvitation_state (db : DB) (newId : InvId) (tid : TTRId) (a b : UserId)
    (m : Option String) :
    (InvitationService.CreateInvitation db newId tid a b m).2 = db
    ∨ ((db.invitations.any fun j => j.ttrID == tid && j.inviteeUserID == b) = false
      ∧ (InvitationService.CreateInvitation db newId tid a b m).2 =
        { db with invitations := db.invitations ++
            [⟨newId, tid, a, b, InvitationStatusPending, m, none⟩] }) := by
  unfold InvitationService.CreateInvitation
  split
  · exact Or.inl rfl
  · dsimp only
    split
    · exact Or.inl rfl
    · split
      · exact Or.inl rfl
      · split
        · exact Or.inl rfl
        · split
          · exact Or.inl rfl
          · rcases Bool.eq_false_or_eq_true
                (match Repo.invFindByTTRAndInvitee db tid b with
                  | some ex => ex.status == InvitationStatusPending
                  | none => false) with hc | hc
            · rw [if_pos hc]
              exact Or.inl rfl
            · rw [if_neg (by simp [hc])]
              split
              · exact Or.inl rfl
              · rename_i db1 heq
                obtain ⟨hfid, hfkey, hsh⟩ := invCreate_ok_fresh db _ db1 heq
                subst hsh
                split
                · exact Or.inr ⟨hfkey, rfl⟩
                · exact Or.inr ⟨hfkey, rfl⟩

/-- The invitations table RespondToInvitation leaves behind: untouched, or
with exactly the found pending invitation rewritten to carry the response
status and timestamp. -/
theorem respondToInvitation_state (db : DB) (invId : InvId) (actor : UserId)
    (s : String) (now : Nat) :
    (InvitationService.RespondToInvitation db invId actor s now).2.invitations =
      db.invitations
    ∨ ∃ found, Repo.invFindByID db invId = some found
        ∧ found.status = InvitationStatusPending
        ∧ (InvitationService.RespondToInvitation db invId actor s now).2.invitations =
            db.invitations.map (fun i =>
              if i.id == found.id then { found with status := s, respondedAt := some now }
              else i) := by
  unfold InvitationService.RespondToInvitation
  split
  · exact Or.inl rfl
  · split
    · exact Or.inl rfl
    · rename_i found heq
      split
      · exact Or.inl rfl
      · split
        · exact Or.inl rfl
        · rename_i hpend
          have hfp : found.status = InvitationStatusPending := by
            rcases Bool.eq_false_or_eq_true (found.status == InvitationStatusPending) with hx | hx
            · rwa [beq_iff_eq] at hx
            · exact absurd (by rw [hx]; rfl) hpend
          split
          · split
            · exact Or.inl rfl
            · split
              · exact Or.inl rfl
              · split
                · exact Or.inl rfl
                · rename_i db1 haddp
                  refine Or.inr ⟨found, heq, hfp, ?_⟩
                  have hinvs := addPlayer_ok_invitations db _ _ _ db1 haddp
                  dsimp only
                  split
                  · unfold Repo.invUpdate
                    dsimp only
                    rw [hinvs]
                  · unfold Repo.invUpdate
                    dsimp only
                    rw [hinvs]
          · refine Or.inr ⟨found, heq, hfp, ?_⟩
            dsimp only
            split
            · unfold Repo.invUpdate
              dsimp only
            · unfold Repo.invUpdate
              dsimp only

/-- The invitations table CancelInvitation leaves behind: untouched, or
with exactly the found pending invitation rewritten to CANCELED. -/
theorem cancelInvitation_state (db : DB) (invId : InvId) (actor : UserId) :
    (InvitationService.CancelInvitation db invId actor).2.invitations = db.invitations
    ∨ ∃ found, Repo.invFindByID db invId = some found
        ∧ found.status = InvitationStatusPending
        ∧ (InvitationService.CancelInvitation db invId actor).2.invitations =
            db.invitations.map (fun i =>
              if i.id == found.id then { found with status := InvitationStatusCanceled }
              else i) := by
  unfold InvitationService.CancelInvitation
  split
  · exact Or.inl rfl
  · rename_i found heq
    split
    · exact Or.inl rfl
    · split
      · exact Or.inl rfl
      · rename_i hauth hpend
        have hfp : found.status = InvitationStatusPending := by
          rcases Bool.eq_false_or_eq_true (found.status == InvitationStatusPending) with hx | hx
          · rwa [beq_iff_eq] at hx
          · exact absurd (by rw [hx]; rfl) hpend
        refine Or.inr ⟨found, heq, hfp, ?_⟩
        dsimp only
        unfold Repo.invUpdate
        dsimp only

/-- The YES response of the invitee to a pending invitation whose TTR is
at capacity stops at the capacity re-check with the Full error, before
any write: the store comes back untouched. -/
theorem respond_yes_full_aux (db : DB) (invId : InvId) (actor : UserId) (now : Nat)
    (inv : Invitation) (ttr : TTR)
    (hinv : Repo.invFindByID db invId = some inv)
    (hpend : inv.status = InvitationStatusPending)
    (hactor : inv.inviteeUserID = actor)
    (httr : Repo.ttrFindByID db inv.ttrID = some ttr)
    (hfull : ((Repo.getPlayers db inv.ttrID).length : Int) ≥ ttr.maxPlayers) :
    InvitationService.RespondToInvitation db invId actor InvitationStatusYes now =
      (.error "TTR is full, cannot accept invitation", db) := by
  unfold InvitationService.RespondToInvitation
  simp only [show (!(InvitationStatusYes == InvitationStatusYes
      || InvitationStatusYes == InvitationStatusNo
      || InvitationStatusYes == InvitationStatusMaybe)) = false from rfl,
    Bool.false_eq_true, if_false]
  rw [hinv]
  dsimp only
  have ha : (inv.inviteeUserID == actor) = true := by rw [beq_iff_eq]; exact hactor
  have hp : (inv.status == InvitationStatusPending) = true := by rw [beq_iff_eq]; exact hpend
  simp only [ha, hp, Bool.not_true, Bool.false_eq_true, if_false]
  simp only [show (InvitationStatusYes == InvitationStatusYes) = true from rfl, if_true]
  rw [httr]
  dsimp only
  rw [if_pos hfull]

/-- C3: for every pending invitation whose TTR roster is at capacity,
RespondToInvitation by the invitee with YES fails with the Full error and
the persisted store is unchanged: the invitation stays PENDING with no
response timestamp and the roster gains no player. -/
theorem C3_respond_yes_on_full_ttr (db : DB) (invId : InvId) (actor : UserId) (now : Nat)
    (inv : Invitation) (ttr : TTR)
    (hinv : Repo.invFindByID db invId = some inv)
    (hpend : inv.status = InvitationStatusPending)
    (hactor : inv.inviteeUserID = actor)
    (httr : Repo.ttrFindByID db inv.ttrID = some ttr)
    (hfull : ((Repo.getPlayers db inv.ttrID).length : Int) ≥ ttr.maxPlayers) :
    InvitationService.RespondToInvitation db invId actor InvitationStatusYes now =
      (.error "TTR is full, cannot accept invitation", db) :=
  respond_yes_full_aux db invId actor now inv ttr hinv hpend hactor httr hfull

theorem C3_respond_yes_on_full_ttr_witness :
    InvitationService.RespondToInvitation dbB 200 2 InvitationStatusYes 999 =
      (.error "TTR is full, cannot accept invitation", dbB) :=
  C3_respond_yes_on_full_ttr dbB 200 2 999
    ⟨200, 20, 1, 2, InvitationStatusPending, none, none⟩ ttrB
    (by rfl) (by rfl) (by rfl) (by rfl) (by decide)

/-- C1: rosters never exceed capacity through JoinTTR or an accepted
invitation: when the roster of an existing TTR is within capacity, it
still is after every successful JoinTTR and after every successful YES
response; and whenever the roster is at or over capacity, both
operations fail with the Full error and add no player. -/
theorem C1_capacity_invariant (db : DB) (tid : TTRId) (ttr : TTR)
    (hfind : Repo.ttrFindByID db tid = some ttr) :
    (∀ uid u db', TTRService.JoinTTR db tid uid = (.ok u, db') →
      (TTRService.getPlayerCount db tid : Int) ≤ ttr.maxPlayers →
      (TTRService.getPlayerCount db' tid : Int) ≤ ttr.maxPlayers)
    ∧ (∀ uid, (TTRService.getPlayerCount db tid : Int) ≥ ttr.maxPlayers →
      TTRService.JoinTTR db tid uid = (.error "TTR is full", db))
    ∧ (∀ invId actor now inv r db',
        Repo.invFindByID db invId = some inv → inv.ttrID = tid →
        InvitationService.RespondToInvitation db invId actor InvitationStatusYes now =
          (.ok r, db') →
        (TTRService.getPlayerCount db tid : Int) ≤ ttr.maxPlayers →
        (TTRService.getPlayerCount db' tid : Int) ≤ ttr.maxPlayers)
    ∧ (∀ invId actor now inv,
        Repo.invFindByID db invId = some inv → inv.ttrID = tid →
        inv.status = InvitationStatusPending → inv.inviteeUserID = actor →
        (TTRService.getPlayerCount db tid : Int) ≥ ttr.maxPlayers →
        InvitationService.RespondToInvitation db invId actor InvitationStatusYes now =
          (.error "TTR is full, cannot accept invitation", db)) := by
  refine ⟨fun uid u db' h hle => ?_, fun uid hge => ?_,
    fun invId actor now inv r db' hinv htid h hle => ?_,
    fun invId actor now inv hinv htid hpend hactor hge => ?_⟩
  · unfold TTRService.JoinTTR at h
    rw [hfind] at h
    try dsimp only at h
    by_cases hcap : ((TTRService.getPlayerCount db tid : Int) ≥ ttr.maxPlayers)
    · rw [if_pos hcap] at h
      exact absurd h (by simp)
    · rw [if_neg hcap] at h
      rcases Bool.eq_false_or_eq_true (Repo.isPlayer db tid uid) with hip | hip
      · rw [if_pos hip] at h
        exact absurd h (by simp)
      · rw [if_neg (by simp [hip])] at h
        unfold Repo.addPlayer at h
        rcases Bool.eq_false_or_eq_true
            (db.players.any fun p => p.ttrID == tid && p.userID == uid) with hd | hd
        · rw [if_pos hd] at h
          exact absurd h (by simp)
        · rw [if_neg (by simp [hd])] at h
          dsimp only at h
          have h2 := congrArg Prod.snd h
          dsimp only at h2
          subst h2
          have hcount : TTRService.getPlayerCount
              { db with players := db.players ++ [⟨tid, uid, TTRPlayerStatusConfirmed⟩] } tid =
              TTRService.getPlayerCount db tid + 1 := by
            unfold TTRService.getPlayerCount
            rw [getPlayers_append]
            simp
          rw [hcount]
          push_cast
          omega
  · unfold TTRService.JoinTTR
    rw [hfind]
    try dsimp only
    rw [if_pos hge]
  · unfold InvitationService.RespondToInvitation at h
    rw [if_neg (by decide)] at h
    rw [hinv] at h
    try dsimp only at h
    rcases Bool.eq_false_or_eq_true (inv.inviteeUserID == actor) with hb | hb
    · rw [if_neg (by simp [hb])] at h
      rcases Bool.eq_false_or_eq_true (inv.status == InvitationStatusPending) with hp | hp
      · rw [if_neg (by simp [hp])] at h
        rw [if_pos (show (InvitationStatusYes == InvitationStatusYes) = true from rfl)] at h
        rw [htid, hfind] at h
        try dsimp only at h
        by_cases hcap : ((Repo.getPlayers db tid).length : Int) ≥ ttr.maxPlayers
        · rw [if_pos hcap] at h
          exact absurd h (by simp)
        · rw [if_neg hcap] at h
          unfold Repo.addPlayer at h
          rcases Bool.eq_false_or_eq_true
              (db.players.any fun p => p.ttrID == tid && p.userID == actor) with hd | hd
          · rw [if_pos hd] at h
            exact absurd h (by simp)
          · rw [if_neg (by simp [hd])] at h
            dsimp only at h
            split at h
            · exact absurd h (by simp)
            · have h2 := congrArg Prod.snd h
              dsimp only at h2
              subst h2
              have hcount : ∀ j : Invitation, TTRService.getPlayerCount
                  (Repo.invUpdate
                    { db with players := db.players ++ [⟨tid, actor, TTRPlayerStatusConfirmed⟩] }
                    j) tid =
                  TTRService.getPlayerCount db tid + 1 := by
                intro j
                unfold TTRService.getPlayerCount
                rw [getPlayers_invUpdate, getPlayers_append]
                simp
              rw [hcount]
              unfold TTRService.getPlayerCount
              push_cast
              omega
      · rw [if_pos (by simp [hp])] at h
        exact absurd h (by simp)
    · rw [if_pos (by simp [hb])] at h
      exact absurd h (by simp)
  · exact respond_yes_full_aux db invId actor now inv ttr hinv hpend hactor
      (htid ▸ hfind) (by unfold TTRService.getPlayerCount at hge; rw [htid]; exact hge)

/-- C7: an invitation that is no longer PENDING (YES, NO, MAYBE or
CANCELED) is frozen: RespondToInvitation by its invitee with a valid
response value and CancelInvitation by its inviter both fail with the
corresponding InvalidOperation error and return the store unchanged; and
no operation of the invitation workflow (CreateInvitation,
RespondToInvitation, CancelInvitation), whatever its arguments, ever
removes or alters a non-PENDING invitation row. -/
theorem C7_terminal_invitations_frozen (db : DB) (hids : InvIdsUnique db) :
    (∀ invId actor s now inv, Repo.invFindByID db invId = some inv →
      inv.status ≠ InvitationStatusPending → inv.inviteeUserID = actor →
      (s = InvitationStatusYes ∨ s = InvitationStatusNo ∨ s = InvitationStatusMaybe) →
      InvitationService.RespondToInvitation db invId actor s now =
        (.error "invitation has already been responded to", db))
    ∧ (∀ invId actor inv, Repo.invFindByID db invId = some inv →
      inv.status ≠ InvitationStatusPending → inv.inviterUserID = actor →
      InvitationService.CancelInvitation db invId actor =
        (.error "only pending invitations can be canceled", db))
    ∧ (∀ inv, inv ∈ db.invitations → inv.status ≠ InvitationStatusPending →
      (∀ newId tid a b m,
        inv ∈ ((InvitationService.CreateInvitation db newId tid a b m).2).invitations)
      ∧ (∀ invId actor s now,
        inv ∈ ((InvitationService.RespondToInvitation db invId actor s now).2).invitations)
      ∧ (∀ invId actor,
        inv ∈ ((InvitationService.CancelInvitation db invId actor).2).invitations)) := by
  have hpendfalse : ∀ inv : Invitation, inv.status ≠ InvitationStatusPending →
      (inv.status == InvitationStatusPending) = false := by
    intro inv hnp
    rw [Bool.eq_false_iff]
    intro hc
    exact hnp (by rwa [beq_iff_eq] at hc)
  have hidne : ∀ inv found : Invitation, inv ∈ db.invitations → found ∈ db.invitations →
      inv.status ≠ InvitationStatusPending → found.status = InvitationStatusPending →
      inv.id ≠ found.id := by
    intro inv found hmi hmf hnp hfp hc
    exact hnp (by rw [List.inj_on_of_nodup_map hids hmi hmf hc]; exact hfp)
  refine ⟨fun invId actor s now inv hinv hnp hact hs => ?_,
    fun invId actor inv hinv hnp hact => ?_,
    fun inv hmem hnp =>
      ⟨fun newId tid a b m => ?_, fun invId actor s now => ?_, fun invId actor => ?_⟩⟩
  · have hvs : (!(s == InvitationStatusYes || s == InvitationStatusNo
        || s == InvitationStatusMaybe)) = false := by
      rcases hs with h | h | h <;> subst h <;> rfl
    unfold InvitationService.RespondToInvitation
    rw [if_neg (by simp [hvs])]
    rw [hinv]
    try dsimp only
    rw [if_neg (by simp [hact])]
    rw [if_pos (by rw [hpendfalse inv hnp]; rfl)]
  · unfold InvitationService.CancelInvitation
    rw [hinv]
    try dsimp only
    rw [if_neg (by simp [hact])]
    rw [if_pos (by rw [hpendfalse inv hnp]; rfl)]
  · rcases createInvitation_state db newId tid a b m with h | ⟨-, h⟩
    · rw [h]
      exact hmem
    · rw [h]
      exact List.mem_append_left _ hmem
  · rcases respondToInvitation_state db invId actor s now with h | ⟨found, hfound, hfp, h⟩
    · rw [h]
      exact hmem
    · rw [h]
      exact mem_map_update_of_ne db.invitations
        { found with status := s, respondedAt := some now } inv hmem
        (hidne inv found hmem (List.mem_of_find?_eq_some hfound) hnp hfp)
  · rcases cancelInvitation_state db invId actor with h | ⟨found, hfound, hfp, h⟩
    · rw [h]
      exact hmem
    · rw [h]
      exact mem_map_update_of_ne db.invitations
        { found with status := InvitationStatusCanceled } inv hmem
        (hidne inv found hmem (List.mem_of_find?_eq_some hfound) hnp hfp)

/-- C2: CreateInvitation checks exactly six preconditions in order — TTR
exists (NotFound), inviter is captain or co-captain (Unauthorized),
invitee exists (NotFound), roster not full (Full), invitee not already a
player (AlreadyExists), no pending invitation for the pair
(AlreadyExists) — the first failing one determining the error, and a new
PENDING invitation is created only when all six pass. -/
theorem C2_createInvitation_preconditions (db : DB) (newId : InvId) (tid : TTRId)
    (inviter invitee : UserId) (m : Option String) :
    (Repo.ttrFindByID db tid = none →
      InvitationService.CreateInvitation db newId tid inviter invitee m =
        (.error "TTR not found", db))
    ∧ (∀ ttr, Repo.ttrFindByID db tid = some ttr →
      ttr.captainUserID ≠ inviter → Repo.isCoCaptain db tid inviter = false →
      InvitationService.CreateInvitation db newId tid inviter invitee m =
        (.error "unauthorized: only captain or co-captain can send invitations", db))
    ∧ (∀ ttr, Repo.ttrFindByID db tid = some ttr →
      (ttr.captainUserID = inviter ∨ Repo.isCoCaptain db tid inviter = true) →
      Repo.userFindByID db invitee = none →
      InvitationService.CreateInvitation db newId tid inviter invitee m =
        (.error "invitee user not found", db))
    ∧ (∀ ttr, Repo.ttrFindByID db tid = some ttr →
      (ttr.captainUserID = inviter ∨ Repo.isCoCaptain db tid inviter = true) →
      invitee ∈ db.users →
      ((Repo.getPlayers db tid).length : Int) ≥ ttr.maxPlayers →
      InvitationService.CreateInvitation db newId tid inviter invitee m =
        (.error "TTR is full", db))
    ∧ (∀ ttr, Repo.ttrFindByID db tid = some ttr →
      (ttr.captainUserID = inviter ∨ Repo.isCoCaptain db tid inviter = true) →
      invitee ∈ db.users →
      ((Repo.getPlayers db tid).length : Int) < ttr.maxPlayers →
      Repo.isPlayer db tid invitee = true →
      InvitationService.CreateInvitation db newId tid inviter invitee m =
        (.error "invitee is already a player in this TTR", db))
    ∧ (∀ ttr ex, Repo.ttrFindByID db tid = some ttr →
      (ttr.captainUserID = inviter ∨ Repo.isCoCaptain db tid inviter = true) →
      invitee ∈ db.users →
      ((Repo.getPlayers db tid).length : Int) < ttr.maxPlayers →
      Repo.isPlayer db tid invitee = false →
      Repo.invFindByTTRAndInvitee db tid invitee = some ex →
      ex.status = InvitationStatusPending →
      InvitationService.CreateInvitation db newId tid inviter invitee m =
        (.error "pending invitation already exists for this user", db))
    ∧ (∀ createdInv db',
      InvitationService.CreateInvitation db newId tid inviter invitee m =
        (.ok createdInv, db') →
      ∃ ttr, Repo.ttrFindByID db tid = some ttr
        ∧ (ttr.captainUserID = inviter ∨ Repo.isCoCaptain db tid inviter = true)
        ∧ invitee ∈ db.users
        ∧ ((Repo.getPlayers db tid).length : Int) < ttr.maxPlayers
        ∧ Repo.isPlayer db tid invitee = false
        ∧ (∀ ex, Repo.invFindByTTRAndInvitee db tid invitee = some ex →
            ex.status ≠ InvitationStatusPending)
        ∧ createdInv = ⟨newId, tid, inviter, invitee, InvitationStatusPending, m, none⟩
        ∧ db' = { db with invitations :=
            db.invitations ++ [⟨newId, tid, inviter, invitee, InvitationStatusPending, m, none⟩] }) := by
  have hauthneg : ∀ ttr : TTR,
      ttr.captainUserID = inviter ∨ Repo.isCoCaptain db tid inviter = true →
      ¬ ((!(ttr.captainUserID == inviter) && !Repo.isCoCaptain db tid inviter) = true) := by
    intro ttr hauth hc
    rw [Bool.and_eq_true, Bool.not_eq_true', Bool.not_eq_true'] at hc
    rcases hauth with h | h
    · have hb := beq_iff_eq.mpr h
      rw [hc.1] at hb
      cases hb
    · rw [h] at hc
      cases hc.2
  refine ⟨fun hnone => ?_, fun ttr hfind hne hco => ?_, fun ttr hfind hauth hnone => ?_,
    fun ttr hfind hauth hmem hfull => ?_, fun ttr hfind hauth hmem hlt hp => ?_,
    fun ttr ex hfind hauth hmem hlt hp hfex hexp => ?_, fun createdInv db' h => ?_⟩
  · unfold InvitationService.CreateInvitation
    rw [hnone]
  · unfold InvitationService.CreateInvitation
    rw [hfind]
    dsimp only
    have h1 : (ttr.captainUserID == inviter) = false := by simp [beq_iff_eq, hne]
    rw [if_pos (by rw [h1, hco]; rfl)]
  · unfold InvitationService.CreateInvitation
    rw [hfind]
    dsimp only
    rw [if_neg (hauthneg ttr hauth), hnone]
  · unfold InvitationService.CreateInvitation
    rw [hfind]
    dsimp only
    rw [if_neg (hauthneg ttr hauth), userFindByID_of_mem db invitee hmem]
    dsimp only
    rw [if_pos hfull]
  · unfold InvitationService.CreateInvitation
    rw [hfind]
    dsimp only
    rw [if_neg (hauthneg ttr hauth), userFindByID_of_mem db invitee hmem]
    dsimp only
    rw [if_neg (not_le.mpr hlt), if_pos hp]
  · unfold InvitationService.CreateInvitation
    rw [hfind]
    dsimp only
    rw [if_neg (hauthneg ttr hauth), userFindByID_of_mem db invitee hmem]
    dsimp only
    rw [if_neg (not_le.mpr hlt), if_neg (by simp [hp])]
    rw [if_pos (by rw [hfex]; exact beq_iff_eq.mpr hexp)]
  · unfold InvitationService.CreateInvitation at h
    split at h
    · exact absurd h (by simp)
    · rename_i ttr hfind
      dsimp only at h
      rcases Bool.eq_false_or_eq_true
          (!(ttr.captainUserID == inviter) && !Repo.isCoCaptain db tid inviter) with hau | hau
      · rw [if_pos hau] at h
        exact absurd h (by simp)
      · rw [if_neg (by simp [hau])] at h
        have hauth : ttr.captainUserID = inviter ∨ Repo.isCoCaptain db tid inviter = true := by
          by_cases hcc : ttr.captainUserID = inviter
          · exact Or.inl hcc
          · right
            have h1 : (ttr.captainUserID == inviter) = false := by simp [beq_iff_eq, hcc]
            rw [h1] at hau
            simpa using hau
        split at h
        · exact absurd h (by simp)
        · rename_i u hufind
          have hmem : invitee ∈ db.users := mem_users_of_userFindByID db invitee u hufind
          by_cases hcap : ((Repo.getPlayers db tid).length : Int) ≥ ttr.maxPlayers
          · rw [if_pos hcap] at h
            exact absurd h (by simp)
          · rw [if_neg hcap] at h
            rcases Bool.eq_false_or_eq_true (Repo.isPlayer db tid invitee) with hip | hip
            · rw [if_pos hip] at h
              exact absurd h (by simp)
            · rw [if_neg (by simp [hip])] at h
              rcases Bool.eq_false_or_eq_true
                  (match Repo.invFindByTTRAndInvitee db tid invitee with
                    | some ex => ex.status == InvitationStatusPending
                    | none => false) with hpend | hpend
              · rw [if_pos hpend] at h
                exact absurd h (by simp)
              · rw [if_neg (by simp [hpend])] at h
                have hnop : ∀ ex, Repo.invFindByTTRAndInvitee db tid invitee = some ex →
                    ex.status ≠ InvitationStatusPending := by
                  intro ex hex hc
                  rw [hex] at hpend
                  dsimp only at hpend
                  have := beq_iff_eq.mpr hc
                  rw [hpend] at this
                  cases this
                split at h
                · exact absurd h (by simp)
                · rename_i db1 hcr
                  obtain ⟨hfid, hfkey, hdb1⟩ := invCreate_ok_fresh db _ db1 hcr
                  subst hdb1
                  have hfn : db.invitations.find? (fun j => j.id == newId) = none := by
                    rw [List.find?_eq_none]
                    intro x hx
                    rw [List.any_eq_false] at hfid
                    exact hfid x hx
                  have hfindnew : Repo.invFindByID
                      { db with invitations := db.invitations ++
                          [⟨newId, tid, inviter, invitee, InvitationStatusPending, m, none⟩] }
                      newId =
                      some ⟨newId, tid, inviter, invitee, InvitationStatusPending, m, none⟩ := by
                    unfold Repo.invFindByID
                    dsimp only
                    rw [find?_append_of_none _ _ _ hfn, List.find?_cons_of_pos _ (by simp)]
                  rw [hfindnew] at h
                  have h1 := congrArg Prod.fst h
                  have h2 := congrArg Prod.snd h
                  dsimp only at h1 h2
                  exact ⟨ttr, hfind, hauth, hmem, by omega, hip, hnop,
                    (Except.ok.inj h1).symm, h2.symm⟩

/-- C4: while the store satisfies the schema constraints of the
invitations table (UNIQUE(ttr_id, invitee_user_id) and PRIMARY KEY id,
migrations/000002), a pending invitation for a (TTR, invitee) pair makes
every CreateInvitation call for that pair by any authorized inviter —
captain or co-captain — fail with the AlreadyExists error once the
earlier preconditions pass; and all three invitation-workflow operations
preserve the pair-uniqueness constraint, so at most one PENDING
invitation per pair ever exists. -/
theorem C4_pending_invitation_unique (db : DB) (newId : InvId) (tid : TTRId)
    (inviter invitee : UserId) (m : Option String) :
    (∀ inv ttr, InvKeysUnique db →
      inv ∈ db.invitations → inv.ttrID = tid → inv.inviteeUserID = invitee →
      inv.status = InvitationStatusPending →
      Repo.ttrFindByID db tid = some ttr →
      (ttr.captainUserID = inviter ∨ Repo.isCoCaptain db tid inviter = true) →
      invitee ∈ db.users →
      ((Repo.getPlayers db tid).length : Int) < ttr.maxPlayers →
      Repo.isPlayer db tid invitee = false →
      InvitationService.CreateInvitation db newId tid inviter invitee m =
        (.error "pending invitation already exists for this user", db))
    ∧ (InvKeysUnique db → InvIdsUnique db →
      InvKeysUnique (InvitationService.CreateInvitation db newId tid inviter invitee m).2
      ∧ (∀ invId actor s now,
          InvKeysUnique (InvitationService.RespondToInvitation db invId actor s now).2)
      ∧ (∀ invId actor,
          InvKeysUnique (InvitationService.CancelInvitation db invId actor).2)) := by
  constructor
  · intro inv ttr hkeys hmem ht hu hpend hfind hauth humem hlt hp
    have hfound := find?_pair_of_nodup db.invitations inv hkeys hmem
    rw [ht, hu] at hfound
    have hfound' : Repo.invFindByTTRAndInvitee db tid invitee = some inv := hfound
    unfold InvitationService.CreateInvitation
    rw [hfind]
    dsimp only
    rw [if_neg (auth_cond_false db tid inviter ttr hauth),
      userFindByID_of_mem db invitee humem]
    dsimp only
    rw [if_neg (not_le.mpr hlt), if_neg (by simp [hp])]
    rw [if_pos (by rw [hfound']; exact beq_iff_eq.mpr hpend)]
  · intro hkeys hids
    refine ⟨?_, fun invId actor s now => ?_, fun invId actor => ?_⟩
    · rcases createInvitation_state db newId tid inviter invitee m with h | ⟨hfkey, h⟩
      · rw [h]
        exact hkeys
      · unfold InvKeysUnique
        rw [h]
        dsimp only
        rw [List.map_append]
        simp only [List.map_cons, List.map_nil, List.nodup_append, List.nodup_cons,
          List.nodup_nil, List.not_mem_nil, not_false_iff, and_true, List.disjoint_singleton]
        refine ⟨hkeys, True.intro, ?_⟩
        intro hc
        rw [List.mem_map] at hc
        obtain ⟨j, hj, hjk⟩ := hc
        rw [List.any_eq_false] at hfkey
        have := hfkey j hj
        rw [Prod.mk.injEq] at hjk
        simp [beq_iff_eq, hjk.1, hjk.2] at this
    · rcases respondToInvitation_state db invId actor s now with h | ⟨found, hfound, hfp, h⟩
      · unfold InvKeysUnique
        rw [h]
        exact hkeys
      · unfold InvKeysUnique
        rw [h, keys_map_update_preserved db.invitations found
          { found with status := s, respondedAt := some now } hids
          (List.mem_of_find?_eq_some hfound) rfl rfl]
        exact hkeys
    · rcases cancelInvitation_state db invId actor with h | ⟨found, hfound, hfp, h⟩
      · unfold InvKeysUnique
        rw [h]
        exact hkeys
      · unfold InvKeysUnique
        rw [h, keys_map_update_preserved db.invitations found
          { found with status := InvitationStatusCanceled } hids
          (List.mem_of_find?_eq_some hfound) rfl rfl]
        exact hkeys

theorem C2_createInvitation_preconditions_witness :
    InvitationService.CreateInvitation dbA 101 10 1 3 none =
      (.error "pending invitation already exists for this user", dbA) :=
  (C2_createInvitation_preconditions dbA 101 10 1 3 none).2.2.2.2.2.1 ttrA
    ⟨100, 10, 1, 3, InvitationStatusPending, none, none⟩
    (by rfl) (Or.inl (by decide)) (by decide) (by decide) (by decide) (by rfl) (by rfl)

theorem C4_pending_invitation_unique_witness :
    InvitationService.CreateInvitation dbA 102 10 2 3 none =
      (.error "pending invitation already exists for this user", dbA)
    ∧ InvKeysUnique (InvitationService.CancelInvitation dbA 100 1).2 :=
  ⟨(C4_pending_invitation_unique dbA 102 10 2 3 none).1
      ⟨100, 10, 1, 3, InvitationStatusPending, none, none⟩ ttrA
      (by decide) (by decide) (by rfl) (by rfl) (by rfl) (by rfl)
      (Or.inr (by decide)) (by decide) (by decide) (by decide),
   ((C4_pending_invitation_unique dbA 102 10 2 3 none).2 (by decide) (by decide)).2.2 100 1⟩

theorem C7_terminal_invitations_frozen_witness :
    InvitationService.RespondToInvitation dbC 300 2 InvitationStatusNo 7 =
      (.error "invitation has already been responded to", dbC)
    ∧ InvitationService.CancelInvitation dbC 300 1 =
      (.error "only pending invitations can be canceled", dbC) :=
  ⟨(C7_terminal_invitations_frozen dbC (by decide)).1 300 2 InvitationStatusNo 7
      ⟨300, 10, 1, 2, InvitationStatusYes, none, some 5⟩ (by rfl) (by decide) (by rfl)
      (Or.inr (Or.inl rfl)),
   (C7_terminal_invitations_frozen dbC (by decide)).2.1 300 1
      ⟨300, 10, 1, 2, InvitationStatusYes, none, some 5⟩ (by rfl) (by decide) (by rfl)⟩

theorem C1_capacity_invariant_witness :
    TTRService.JoinTTR dbB 20 3 = (.error "TTR is full", dbB) :=
  (C1_capacity_invariant dbB 20 ttrB (by rfl)).2.1 3 (by decide)

/-- C9 (counterexample): on an existing TTR, UpdateTTR called by the
captain with the unrecognized status value "BOGUS" does not fail with
InvalidArgument: it succeeds and the stored TTR status becomes "BOGUS". -/
theorem C9_updateTTR_accepts_bogus_status :
    (TTRService.UpdateTTR dbA 10 1 none none none none none (some "BOGUS") none).1 =
      .ok { ttrA with status := "BOGUS" }
    ∧ Repo.ttrFindByID
        (TTRService.UpdateTTR dbA 10 1 none none none none none (some "BOGUS") none).2 10 =
      some { ttrA with status := "BOGUS" } :=
  ⟨rfl, rfl⟩

/-- C9 (amended): UpdateTTR performs no validation of the supplied status
value: for every existing TTR and every authorized actor (captain or
co-captain), supplying any status string — recognized or not — succeeds,
and the stored status becomes exactly that string. -/
theorem C9_updateTTR_status_unvalidated (db : DB) (tid : TTRId) (uid : UserId) (ttr : TTR)
    (s : String)
    (hfind : Repo.ttrFindByID db tid = some ttr)
    (hauth : ttr.captainUserID = uid ∨ Repo.isCoCaptain db tid uid = true) :
    TTRService.UpdateTTR db tid uid none none none none none (some s) none =
      (.ok { ttr with status := s }, Repo.ttrUpdate db { ttr with status := s }) := by
  have hcm : TTRService.canManageTTR db tid uid = .ok true := by
    unfold TTRService.canManageTTR TTRService.isCaptain
    rw [hfind]
    dsimp only
    by_cases hc : ttr.captainUserID = uid
    · have hb : (ttr.captainUserID == uid) = true := by rw [beq_iff_eq]; exact hc
      rw [hb]
    · have hb : (ttr.captainUserID == uid) = false := by simp [beq_iff_eq, hc]
      rw [hb]
      rcases hauth with h | h
      · exact absurd h hc
      · dsimp only
        rw [h]
  unfold TTRService.UpdateTTR
  rw [hcm, hfind]
  dsimp only
  simp only [Option.isSome_none, Bool.false_and, Bool.false_eq_true, if_false]
  have hupd := find?_map_update_key TTR.id db.ttrs tid ttr { ttr with status := s }
    (by unfold Repo.ttrFindByID at hfind; exact hfind) rfl
  unfold Repo.ttrUpdate Repo.ttrFindByID
  dsimp only
  rw [hupd]

theorem C9_updateTTR_status_unvalidated_witness :
    TTRService.UpdateTTR dbA 10 2 none none none none none (some "WHATEVER") none =
      (.ok { ttrA with status := "WHATEVER" },
       Repo.ttrUpdate dbA { ttrA with status := "WHATEVER" }) :=
  C9_updateTTR_status_unvalidated dbA 10 2 ttrA "WHATEVER" (by rfl) (Or.inr (by decide))

end GolfMessenger
